import Mathlib

/-!
Verification development for the `vyper-tutorials` repository: a small
authorization and conditional-release ledger engine exposing three policy
modules (Allowance Authority / `ControlledSpender`, Stream Accrual Engine /
`StreamCap`, Commit-Reveal Escrow / `CommitRelease`) behind an external
account-balance ledger, together with the Python client scripts
(`agent_demo.py`, `test_agent_workflows.py`) that drive them.

The Vyper contract sources are not part of the repository snapshot (only the
compile/deploy/test scripts and ABIs are), so the module operations are
modelled from the specification; the client-side logic (the `call_spend`
precondition gating and the commit-key derivation) is embedded directly from
the Python scripts.
-/

namespace VyperTutorials

/-- Account identifier (an address). -/
abbrev Addr := Nat

/-- Generic association-list lookup used for all record tables. -/
def lookupKV {κ α : Type} [DecidableEq κ] : List (κ × α) → κ → Option α
  | [], _ => none
  | (k', v') :: rest, k => if k' = k then some v' else lookupKV rest k

/-- Generic association-list write: replaces the first binding of the key, or
appends a new binding when the key is absent. -/
def setKV {κ α : Type} [DecidableEq κ] : List (κ × α) → κ → α → List (κ × α)
  | [], k, v => [(k, v)]
  | (k', v') :: rest, k, v =>
    if k' = k then (k, v) :: rest else (k', v') :: setKV rest k v

/-- Modelled from the spec: `AllowanceRecord`, keyed by (owner, spender):
remaining non-negative integer and an expiry timestamp. The Vyper source of
`ControlledSpender` is not in the repository snapshot. -/
structure AllowanceRecord where
  remaining : Nat
  expiry : Nat
deriving DecidableEq

/-- Modelled from the spec: `StreamRecord`, keyed by a monotonically
increasing stream id. The Vyper source of `StreamCap` is not in the
repository snapshot. -/
structure StreamRecord where
  sender : Addr
  recipient : Addr
  rate_per_second : Nat
  cap : Nat
  start_time : Nat
  withdrawn : Nat
deriving DecidableEq

/-- Modelled from the spec: `Commitment`, keyed by the 32-byte commitment
key: committer, deposit, and the one-way `revealed` flag. The Vyper source of
`CommitRelease` is not in the repository snapshot. -/
structure Commitment where
  committer : Addr
  deposit : Nat
  revealed : Bool
deriving DecidableEq

/-- Error taxonomy of the spec (kinds, not identifiers). -/
inductive Err where
  | NotFound
  | Expired
  | InsufficientAuthorization
  | InsufficientFunds
  | AlreadyConsumed
  | InvalidInput
deriving DecidableEq

/-- Modelled from the spec: the combined state of the three policy modules
plus the shared external balance ledger. `owner` is the module's funding
owner (the deployer), `moduleBalance` the module's own ledger balance, and
`ledger` the balances of external accounts. -/
structure ModuleState where
  owner : Addr
  allowances : List ((Addr × Addr) × AllowanceRecord)
  streams : List (Nat × StreamRecord)
  nextStreamId : Nat
  commitments : List (List Nat × Commitment)
  moduleBalance : Nat
  ledger : List (Addr × Nat)
deriving DecidableEq

/-- Modelled from the spec: the atomic transfer primitive of the external
ledger collaborator — `transfer(from_module_balance, to_account, amount) ->
success | insufficient_funds`. -/
def transferOut (σ : ModuleState) (dst : Addr) (amount : Nat) :
    Except Err ModuleState :=
  if σ.moduleBalance < amount then .error .InsufficientFunds
  else .ok { σ with
    moduleBalance := σ.moduleBalance - amount,
    ledger := setKV σ.ledger dst ((lookupKV σ.ledger dst).getD 0 + amount) }

/-- Modelled from the spec: `set_allowance(caller=owner, spender, amount,
expiry)` overwrites the AllowanceRecord for (owner=caller, spender) with
`{remaining: amount, expiry}`; it fully replaces any prior remaining balance
for the pair and has no error conditions (amounts are unsigned). -/
def set_allowance (σ : ModuleState) (caller spender : Addr)
    (amount expiryT : Nat) : ModuleState :=
  { σ with allowances :=
      setKV σ.allowances (caller, spender) ⟨amount, expiryT⟩ }

/-- Modelled from the spec: the pure read `allowance(owner, spender)`;
returns 0 for a pair with no record. -/
def allowance (σ : ModuleState) (owner spender : Addr) : Nat :=
  ((lookupKV σ.allowances (owner, spender)).map (·.remaining)).getD 0

/-- Modelled from the spec: the pure read `expiry(owner, spender)`; returns 0
for a pair with no record. -/
def expiry (σ : ModuleState) (owner spender : Addr) : Nat :=
  ((lookupKV σ.allowances (owner, spender)).map (·.expiry)).getD 0

/-- Modelled from the spec: `spend(caller=spender, to, amount)` with the
module's funding owner as implicit owner. Checks, in order: record exists;
`expiry > now` strictly (`expiry == now` is expired); `amount <= remaining`;
then decrements `remaining` and performs the atomic transfer, which itself
checks the module balance. A failure anywhere yields an error and (at the
`exec` level) no state change. -/
def spend (σ : ModuleState) (caller dst : Addr) (amount now : Nat) :
    Except Err ModuleState :=
  match lookupKV σ.allowances (σ.owner, caller) with
  | none => .error .NotFound
  | some r =>
    if r.expiry ≤ now then .error .Expired
    else if r.remaining < amount then .error .InsufficientAuthorization
    else
      let al := setKV σ.allowances (σ.owner, caller) ⟨r.remaining - amount, r.expiry⟩
      transferOut { σ with allowances := al } dst amount

/-- Modelled from the spec: `create_stream(caller=sender, recipient,
rate_per_second, cap)` with attached `funding` value. Requires
`rate_per_second > 0` and `cap > 0`; under-funding is not an error at
creation. Allocates a fresh strictly increasing stream id (starting at 1),
stores the record with `start_time = now` and `withdrawn = 0`, credits the
attached funding to the module balance, and returns the new id. -/
def create_stream (σ : ModuleState) (caller recipient : Addr)
    (rate cap funding now : Nat) : Except Err (ModuleState × Nat) :=
  if rate = 0 ∨ cap = 0 then .error .InvalidInput
  else
    let id := σ.nextStreamId
    .ok ({ σ with
      streams := setKV σ.streams id ⟨caller, recipient, rate, cap, now, 0⟩,
      nextStreamId := id + 1,
      moduleBalance := σ.moduleBalance + funding }, id)

/-- Modelled from the spec: the pure computation `withdrawable(stream_id)`:
`accrued = min(cap, rate_per_second * (now - start_time))`, result
`max(0, accrued - withdrawn)`; `now - start_time` is clamped to 0 when
negative (truncated natural subtraction performs both clamps). Returns 0 for
a nonexistent stream. -/
def withdrawable (σ : ModuleState) (id now : Nat) : Nat :=
  match lookupKV σ.streams id with
  | none => 0
  | some s => min s.cap (s.rate_per_second * (now - s.start_time)) - s.withdrawn

/-- Modelled from the spec: `withdraw(stream_id)` — rejects if the stream
does not exist or nothing is withdrawable; otherwise adds the amount to
`withdrawn` and transfers it to the recorded recipient, the two effects an
atomic unit (an insufficient module balance rejects the whole call). -/
def withdraw (σ : ModuleState) (id now : Nat) : Except Err ModuleState :=
  match lookupKV σ.streams id with
  | none => .error .NotFound
  | some s =>
    let amount := withdrawable σ id now
    if amount = 0 then .error .InsufficientAuthorization
    else
      let st := setKV σ.streams id { s with withdrawn := s.withdrawn + amount }
      transferOut { σ with streams := st } s.recipient amount

/-- Modelled from the spec: `commit(caller, key, deposit)` — rejects if a
Commitment already exists for `key` (duplicate commit, regardless of the
attached deposit); otherwise stores `{committer, deposit, revealed=false}`
and credits the attached value to the module balance. -/
def commit (σ : ModuleState) (caller : Addr) (key : List Nat)
    (deposit : Nat) : Except Err ModuleState :=
  match lookupKV σ.commitments key with
  | some _ => .error .AlreadyConsumed
  | none => .ok { σ with
      commitments := setKV σ.commitments key ⟨caller, deposit, false⟩,
      moduleBalance := σ.moduleBalance + deposit }

/-- Big-endian fixed-width byte encoding of a natural number, mirroring
Python's `amount.to_bytes(n, 'big')` (for values below `256^n`). -/
def toBytesBE : Nat → Nat → List Nat
  | 0, _ => []
  | n + 1, v => toBytesBE n (v / 256) ++ [v % 256]

/-- Big-endian byte decoding, the left inverse of `toBytesBE`. -/
def fromBytesBE (bs : List Nat) : Nat :=
  bs.foldl (fun acc b => acc * 256 + b) 0

/-- The commitment-key derivation: hash of `secret ‖ recipient_address ‖
amount_as_32_byte_big_endian_integer`. The hash function `H` stands for the
external Keccak-256 primitive (`Web3.keccak`); addresses are 20 bytes. -/
def commitKey (H : List Nat → List Nat) (secret : List Nat)
    (dst : Addr) (amount : Nat) : List Nat :=
  H (secret ++ toBytesBE 20 dst ++ toBytesBE 32 amount)

/-- Modelled from the spec: `reveal(secret, to, amount)` recomputes the key
the same way as commit-key derivation, looks the Commitment up, rejects with
`NotFound` when absent and `AlreadyConsumed` when already revealed, and
otherwise marks it revealed and transfers `amount` to the recipient atomically. -/
def reveal (H : List Nat → List Nat) (σ : ModuleState) (secret : List Nat)
    (dst : Addr) (amount : Nat) : Except Err ModuleState :=
  let key := commitKey H secret dst amount
  match lookupKV σ.commitments key with
  | none => .error .NotFound
  | some c =>
    if c.revealed then .error .AlreadyConsumed
    else
      let cm := setKV σ.commitments key { c with revealed := true }
      transferOut { σ with commitments := cm } dst amount

/-- The six public mutating operations, as submitted calls. -/
inductive Call where
  | set_allowance (caller spender : Addr) (amount expiryT : Nat)
  | spend (caller dst : Addr) (amount now : Nat)
  | create_stream (caller recipient : Addr) (rate cap funding now : Nat)
  | withdraw (id now : Nat)
  | commit (caller : Addr) (key : List Nat) (deposit : Nat)
  | reveal (secret : List Nat) (dst : Addr) (amount : Nat)

/-- One call against the modules: either the fully applied post-state or a
typed rejection. `H` is the external hash primitive used by `reveal`. -/
def step (H : List Nat → List Nat) (σ : ModuleState) : Call → Except Err ModuleState
  | .set_allowance caller spender amount expiryT =>
    .ok (set_allowance σ caller spender amount expiryT)
  | .spend caller dst amount now => spend σ caller dst amount now
  | .create_stream caller recipient rate cap funding now =>
    (create_stream σ caller recipient rate cap funding now).map (·.1)
  | .withdraw id now => withdraw σ id now
  | .commit caller key deposit => commit σ caller key deposit
  | .reveal secret dst amount => reveal H σ secret dst amount

/-- The substrate's call-processing discipline: a rejected call leaves the
state exactly as it was; a succeeded call installs its full post-state. -/
def exec (H : List Nat → List Nat) (σ : ModuleState) (c : Call) : ModuleState :=
  match step H σ c with
  | .ok σ' => σ'
  | .error _ => σ

/-- A spend transaction as built, signed and broadcast by the demo client. -/
structure SpendTx where
  sender : Addr
  dst : Addr
  amount : Nat
deriving DecidableEq

/-- The client-side gating of `call_spend` in `agent_demo.py` (lines
114-152): the client reads `allowance(AGENT)`, `expiry(AGENT)` and the
current time; if `expiry <= current_time` it prints "Allowance expired!" and
returns `False` without sending; if `allowance < amount_wei` it returns
`False` without sending; otherwise it builds, signs and broadcasts the spend
transaction and returns `True`. The result pairs the returned boolean with
the transaction broadcast, if any. -/
def call_spend (agent : Addr) (allowanceRead expiryRead current_time : Nat)
    (dst : Addr) (amount_wei : Nat) : Bool × Option SpendTx :=
  if expiryRead ≤ current_time then (false, none)
  else if allowanceRead < amount_wei then (false, none)
  else (true, some ⟨agent, dst, amount_wei⟩)

/-- The commitment-key computation of `call_commit_reveal` in
`agent_demo.py` (lines 192-198): `key = keccak(secret_bytes + to_bytes +
amount.to_bytes(32, 'big'))`, with `keccak` the external `Web3.keccak`
primitive and `to_bytes` the 20 address bytes. -/
def demo_commit_key (keccak : List Nat → List Nat) (secret : List Nat)
    (dst : Addr) (amount : Nat) : List Nat :=
  keccak (secret ++ toBytesBE 20 dst ++ toBytesBE 32 amount)

/-- The commitment-key computation of `test_commit_release` in
`test_agent_workflows.py` (lines 247-256): `key = keccak(secret + to_bytes +
amount.to_bytes(32, 'big'))`. -/
def test_commit_key (keccak : List Nat → List Nat) (secret : List Nat)
    (dst : Addr) (amount : Nat) : List Nat :=
  keccak (secret ++ toBytesBE 20 dst ++ toBytesBE 32 amount)

/-- One spend request of a spender: destination, amount, and the time at
which it is processed. -/
structure SpendReq where
  dst : Addr
  amount : Nat
  now : Nat
deriving DecidableEq

/-- Processing of one spend call under the substrate discipline: the state
after the call together with the amount actually transferred (0 on
rejection). -/
def spendStep (σ : ModuleState) (sp : Addr) (q : SpendReq) : ModuleState × Nat :=
  match spend σ sp q.dst q.amount q.now with
  | .ok σ' => (σ', q.amount)
  | .error _ => (σ, 0)

/-- A sequence of spend calls by spender `sp`: the final state together with
the total amount transferred by the successful calls. -/
def runSpends (σ : ModuleState) (sp : Addr) : List SpendReq → ModuleState × Nat
  | [] => (σ, 0)
  | q :: rest =>
    let p := spendStep σ sp q
    let pr := runSpends p.1 sp rest
    (pr.1, p.2 + pr.2)

/-! ### Concrete states used to evaluate the theorems -/

/-- A state with no records: owner 0, module balance 50, stream ids start
at 1. -/
def emptyState : ModuleState :=
  { owner := 0, allowances := [], streams := [], nextStreamId := 1,
    commitments := [], moduleBalance := 50, ledger := [] }

/-- A state holding one allowance of 10 for spender 1, expiring at time 100,
with module balance 50. -/
def sampleState : ModuleState :=
  { owner := 0, allowances := [((0, 1), ⟨10, 100⟩)], streams := [],
    nextStreamId := 1, commitments := [], moduleBalance := 50, ledger := [] }

/-- The state after committing `commitKey id [1] 2 3` with deposit 5. -/
def commitState : ModuleState :=
  match commit emptyState 7 (commitKey id [1] 2 3) 5 with
  | .ok σ => σ
  | .error _ => emptyState

/-- The spec's stream scenario: a stream created at time 1000 with rate 10
per second and cap 100, funded with 100. -/
def streamState : ModuleState :=
  match create_stream emptyState 0 2 10 100 100 1000 with
  | .ok p => p.1
  | .error _ => emptyState

/-- The stream scenario after the first withdrawal at time 1005. -/
def streamState2 : ModuleState :=
  match withdraw streamState 1 1005 with
  | .ok σ => σ
  | .error _ => streamState

/-! ### Association-list lemmas -/

theorem lookupKV_setKV_self {κ α : Type} [DecidableEq κ]
    (l : List (κ × α)) (k : κ) (v : α) :
    lookupKV (setKV l k v) k = some v := by
  induction l with
  | nil => simp [setKV, lookupKV]
  | cons hd tl ih =>
    obtain ⟨k', v'⟩ := hd
    by_cases h : k' = k <;> simp [setKV, lookupKV, h, ih]

theorem lookupKV_setKV_ne {κ α : Type} [DecidableEq κ]
    (l : List (κ × α)) (k k' : κ) (v : α) (h : k' ≠ k) :
    lookupKV (setKV l k v) k' = lookupKV l k' := by
  induction l with
  | nil => simp [setKV, lookupKV, Ne.symm h]
  | cons hd tl ih =>
    obtain ⟨k₀, v₀⟩ := hd
    by_cases h₀ : k₀ = k
    · subst h₀
      simp [setKV, lookupKV, Ne.symm h]
    · by_cases h₁ : k₀ = k' <;> simp [setKV, lookupKV, h₀, h₁, h, ih]

/-! ### Byte-encoding lemmas -/

theorem toBytesBE_length (n : Nat) : ∀ v : Nat, (toBytesBE n v).length = n := by
  induction n with
  | zero => intro v; simp [toBytesBE]
  | succ n ih => intro v; simp [toBytesBE, ih]

theorem fromBytesBE_append (xs : List Nat) (b : Nat) :
    fromBytesBE (xs ++ [b]) = fromBytesBE xs * 256 + b := by
  simp [fromBytesBE]

theorem fromBytesBE_toBytesBE (n : Nat) : ∀ v : Nat,
    fromBytesBE (toBytesBE n v) = v % 256 ^ n := by
  induction n with
  | zero => intro v; simp [toBytesBE, fromBytesBE, Nat.mod_one]
  | succ n ih =>
    intro v
    rw [toBytesBE, fromBytesBE_append, ih, pow_succ]
    have hr : v / 256 % 256 ^ n < 256 ^ n := Nat.mod_lt _ (pow_pos (by norm_num) n)
    have hlt : v / 256 % 256 ^ n * 256 + v % 256 < 256 ^ n * 256 := by
      calc v / 256 % 256 ^ n * 256 + v % 256
          < (v / 256 % 256 ^ n + 1) * 256 := by omega
        _ ≤ 256 ^ n * 256 := mul_le_mul_right' hr 256
    have h1 : v = 256 ^ n * 256 * (v / 256 / 256 ^ n) +
        (v / 256 % 256 ^ n * 256 + v % 256) := by
      conv_lhs => rw [← Nat.div_add_mod v 256, ← Nat.div_add_mod (v / 256) (256 ^ n)]
      ring
    conv_rhs => rw [h1]
    rw [Nat.mul_add_mod, Nat.mod_eq_of_lt hlt]

/-! ### Claim theorems -/

/-- C4: the commitment key is derived as the 256-bit hash (`Web3.keccak`,
i.e. Keccak-256, here an abstract function `keccak`) of the concatenation of
the secret bytes, the 20 recipient-address bytes, and the amount encoded as
an unsigned 32-byte big-endian integer; the demo client
(`agent_demo.py`), the end-to-end test (`test_agent_workflows.py`) and the
reveal-side verification (`commitKey`, used by `reveal`) all use this same
function and encoding; the 32-byte big-endian encoding is fixed-width and
lossless below `256^32`. -/
theorem commit_key_derivation :
    (∀ (keccak : List Nat → List Nat) (secret : List Nat) (dst : Addr) (amount : Nat),
      demo_commit_key keccak secret dst amount = commitKey keccak secret dst amount ∧
      test_commit_key keccak secret dst amount = commitKey keccak secret dst amount) ∧
    (∀ amount : Nat, (toBytesBE 32 amount).length = 32) ∧
    (∀ amount : Nat, amount < 256 ^ 32 → fromBytesBE (toBytesBE 32 amount) = amount) := by
  refine ⟨fun _ _ _ _ => ⟨rfl, rfl⟩, fun a => toBytesBE_length 32 a, fun a ha => ?_⟩
  rw [fromBytesBE_toBytesBE, Nat.mod_eq_of_lt ha]

/-- Witness for C4 at a concrete amount. -/
theorem commit_key_derivation_witness : fromBytesBE (toBytesBE 32 5) = 5 :=
  commit_key_derivation.2.2 5 (by norm_num)

/-- C8: `set_allowance(owner, spender, A, E)` followed immediately by
`allowance(owner, spender)` returns exactly `A`, and a second
`set_allowance` for the same pair replaces the prior remaining value with
its amount rather than adding to it. -/
theorem set_allowance_write_read (σ : ModuleState) (owner spender : Addr)
    (A E A' E' : Nat) :
    allowance (set_allowance σ owner spender A E) owner spender = A ∧
    allowance (set_allowance (set_allowance σ owner spender A E) owner spender A' E')
      owner spender = A' := by
  constructor <;> simp [allowance, set_allowance, lookupKV_setKV_self]

/-- C10: the demo client's `call_spend` builds, signs and broadcasts a spend
transaction exactly when both client-side preconditions hold — the read
expiry is strictly greater than the current time and the read allowance is
at least the requested amount; otherwise it returns `False` without sending
any transaction. -/
theorem call_spend_gating (agent : Addr) (al ex ct : Nat) (dst : Addr) (amt : Nat) :
    (call_spend agent al ex ct dst amt = (false, none) ↔ ex ≤ ct ∨ al < amt) ∧
    (call_spend agent al ex ct dst amt = (true, some ⟨agent, dst, amt⟩) ↔
      ct < ex ∧ amt ≤ al) := by
  unfold call_spend
  by_cases h1 : ex ≤ ct <;> by_cases h2 : al < amt
  all_goals simp [h1, h2]
  all_goals omega

/-- C1: every public operation (`set_allowance`, `spend`, `create_stream`,
`withdraw`, `commit`, `reveal`) is atomic under the substrate's
call-processing discipline: a rejected call leaves the record tables and all
ledger balances exactly as they were, and a succeeded call installs its full
post-state (all mutations and the single transfer together). -/
theorem exec_atomic (H : List Nat → List Nat) (σ : ModuleState) (c : Call) :
    (∀ e, step H σ c = .error e → exec H σ c = σ) ∧
    (∀ σ', step H σ c = .ok σ' → exec H σ c = σ') := by
  constructor <;> intro x hx <;> simp [exec, hx]

/-- Witness for C1: a rejected `withdraw` (no stream 1 in `sampleState`)
leaves the state unchanged. -/
theorem exec_atomic_witness : exec id sampleState (Call.withdraw 1 0) = sampleState :=
  (exec_atomic id sampleState (Call.withdraw 1 0)).1 Err.NotFound rfl

/-- C2: the allowance expiry check of `spend` is strictly greater-than: with
sufficient remaining allowance and module funds, a spend at `now == expiry`
fails with `Expired`, and a spend at `now == expiry - 1` succeeds. -/
theorem spend_expiry_boundary (σ : ModuleState) (sp dst : Addr) (amount : Nat)
    (r : AllowanceRecord) (h : lookupKV σ.allowances (σ.owner, sp) = some r)
    (hE : 1 ≤ r.expiry) (hrem : amount ≤ r.remaining)
    (hbal : amount ≤ σ.moduleBalance) :
    spend σ sp dst amount r.expiry = .error .Expired ∧
    ∃ σ', spend σ sp dst amount (r.expiry - 1) = .ok σ' := by
  constructor
  · simp [spend, h]
  · have h1 : ¬ r.expiry ≤ r.expiry - 1 := by omega
    have h2 : ¬ r.remaining < amount := by omega
    have h3 : ¬ σ.moduleBalance < amount := by omega
    refine ⟨{ σ with
      allowances := setKV σ.allowances (σ.owner, sp) ⟨r.remaining - amount, r.expiry⟩,
      moduleBalance := σ.moduleBalance - amount,
      ledger := setKV σ.ledger dst ((lookupKV σ.ledger dst).getD 0 + amount) }, ?_⟩
    simp [spend, h, h1, h2, transferOut, h3]

/-- Witness for C2 on `sampleState` (allowance 10 expiring at 100, balance
50): spending 5 at time 100 is `Expired`, at time 99 it succeeds. -/
theorem spend_expiry_boundary_witness :
    spend sampleState 1 2 5 100 = .error .Expired ∧
    ∃ σ', spend sampleState 1 2 5 99 = .ok σ' :=
  spend_expiry_boundary sampleState 1 2 5 ⟨10, 100⟩ rfl (by decide) (by decide)
    (by decide)

/-- C6: for every stream and times `t1 ≤ t2` with no intervening withdraw,
`withdrawable` is non-decreasing in `now`, reads at equal times are equal
(idempotent), and the value always lies between 0 and `cap - withdrawn`
inclusive. -/
theorem withdrawable_monotone_bounded (σ : ModuleState) (id : Nat) :
    (∀ t1 t2 : Nat, t1 ≤ t2 → withdrawable σ id t1 ≤ withdrawable σ id t2) ∧
    (∀ t1 t2 : Nat, t1 = t2 → withdrawable σ id t1 = withdrawable σ id t2) ∧
    (∀ (now : Nat) (s : StreamRecord), lookupKV σ.streams id = some s →
      0 ≤ withdrawable σ id now ∧ withdrawable σ id now ≤ s.cap - s.withdrawn) := by
  refine ⟨?_, fun t1 t2 ht => ht ▸ rfl, ?_⟩
  · intro t1 t2 h
    cases hl : lookupKV σ.streams id with
    | none => simp [withdrawable, hl]
    | some s =>
      simp only [withdrawable, hl]
      have h2 : s.rate_per_second * (t1 - s.start_time) ≤
          s.rate_per_second * (t2 - s.start_time) :=
        Nat.mul_le_mul_left _ (Nat.sub_le_sub_right h _)
      exact Nat.sub_le_sub_right (min_le_min le_rfl h2) _
  · intro now s h
    refine ⟨Nat.zero_le _, ?_⟩
    simp only [withdrawable, h]
    exact Nat.sub_le_sub_right (min_le_left _ _) _

/-- Witness for C6 on the scenario stream. -/
theorem withdrawable_monotone_bounded_witness :
    withdrawable streamState 1 1005 ≤ withdrawable streamState 1 1020 ∧
    withdrawable streamState 1 1020 ≤
      (⟨0, 2, 10, 100, 1000, 0⟩ : StreamRecord).cap -
        (⟨0, 2, 10, 100, 1000, 0⟩ : StreamRecord).withdrawn :=
  ⟨(withdrawable_monotone_bounded streamState 1).1 1005 1020 (by decide),
   ((withdrawable_monotone_bounded streamState 1).2.2 1020
     ⟨0, 2, 10, 100, 1000, 0⟩ rfl).2⟩

/-- C9: a `commit` for a key that is already committed is rejected with
`AlreadyConsumed` regardless of its attached deposit, and — at the `exec`
level — the existing Commitment record and the whole state are unchanged. -/
theorem duplicate_commit_rejected (H : List Nat → List Nat) (σ σ₁ : ModuleState)
    (caller caller2 : Addr) (key : List Nat) (d d2 : Nat)
    (hc : commit σ caller key d = .ok σ₁) :
    commit σ₁ caller2 key d2 = .error .AlreadyConsumed ∧
    exec H σ₁ (.commit caller2 key d2) = σ₁ ∧
    lookupKV σ₁.commitments key = some ⟨caller, d, false⟩ := by
  unfold commit at hc
  cases hl : lookupKV σ.commitments key with
  | some c => rw [hl] at hc; exact absurd hc (by simp)
  | none =>
    rw [hl] at hc
    simp only [Except.ok.injEq] at hc
    subst hc
    have hfound : lookupKV (setKV σ.commitments key
        (⟨caller, d, false⟩ : Commitment)) key = some ⟨caller, d, false⟩ :=
      lookupKV_setKV_self _ _ _
    refine ⟨by simp [commit, hfound], ?_, hfound⟩
    simp [exec, step, commit, hfound]

/-- Witness for C9: re-committing the key of `commitState` with a different
caller and deposit is rejected and changes nothing. -/
theorem duplicate_commit_rejected_witness :
    commit commitState 9 (commitKey id [1] 2 3) 99 = .error .AlreadyConsumed ∧
    exec id commitState (.commit 9 (commitKey id [1] 2 3) 99) = commitState ∧
    lookupKV commitState.commitments (commitKey id [1] 2 3) = some ⟨7, 5, false⟩ :=
  duplicate_commit_rejected id emptyState commitState 7 9 (commitKey id [1] 2 3) 5 99 rfl

/-- C5: for every existing stream, `withdrawable` equals
`max(0, min(cap, rate_per_second * (now - start_time)) - withdrawn)` with the
elapsed time clamped at 0 (stated over ℤ so both clamps are explicit); and
the spec's concrete scenario: a stream with rate 10/sec and cap 100 has
`withdrawable = 50` at `start_time + 5`; after withdrawing 50, `withdrawable`
at `start_time + 20` is `min(100, 200) - 50 = 50`. -/
theorem withdrawable_formula :
    (∀ (σ : ModuleState) (id now : Nat) (s : StreamRecord),
      lookupKV σ.streams id = some s →
      (withdrawable σ id now : ℤ) =
        max 0 (min (s.cap : ℤ)
          ((s.rate_per_second : ℤ) * max 0 ((now : ℤ) - (s.start_time : ℤ)))
          - (s.withdrawn : ℤ))) ∧
    withdrawable streamState 1 1005 = 50 ∧
    withdraw streamState 1 1005 = .ok streamState2 ∧
    withdrawable streamState2 1 1020 = 50 := by
  refine ⟨?_, by decide, rfl, by decide⟩
  intro σ id now s h
  simp only [withdrawable, h]
  have hsub : ((now - s.start_time : ℕ) : ℤ) =
      max 0 ((now : ℤ) - (s.start_time : ℤ)) := by omega
  have hmul : ((s.rate_per_second * (now - s.start_time) : ℕ) : ℤ) =
      (s.rate_per_second : ℤ) * max 0 ((now : ℤ) - (s.start_time : ℤ)) := by
    rw [Nat.cast_mul, hsub]
  rw [← hmul]
  generalize s.rate_per_second * (now - s.start_time) = m
  omega

/-- Witness for C5's formula at the scenario stream. -/
theorem withdrawable_formula_witness :
    (withdrawable streamState 1 1005 : ℤ) =
      max 0 (min (((⟨0, 2, 10, 100, 1000, 0⟩ : StreamRecord).cap : ℕ) : ℤ)
        ((((⟨0, 2, 10, 100, 1000, 0⟩ : StreamRecord).rate_per_second : ℕ) : ℤ) *
          max 0 ((1005 : ℤ) -
            (((⟨0, 2, 10, 100, 1000, 0⟩ : StreamRecord).start_time : ℕ) : ℤ)))
        - (((⟨0, 2, 10, 100, 1000, 0⟩ : StreamRecord).withdrawn : ℕ) : ℤ)) :=
  withdrawable_formula.1 streamState 1 1005 ⟨0, 2, 10, 100, 1000, 0⟩ (by decide)

/-- A successful `spend` consumed exactly its amount from the allowance
record of (owner, caller) and preserved the module owner. -/
theorem spend_ok_inv (σ σ' : ModuleState) (sp dst : Addr) (amount now : Nat)
    (r : AllowanceRecord) (h : lookupKV σ.allowances (σ.owner, sp) = some r)
    (hok : spend σ sp dst amount now = .ok σ') :
    amount ≤ r.remaining ∧ σ'.owner = σ.owner ∧
    lookupKV σ'.allowances (σ'.owner, sp) = some ⟨r.remaining - amount, r.expiry⟩ := by
  simp only [spend, h] at hok
  by_cases h1 : r.expiry ≤ now
  · simp [h1] at hok
  · by_cases h2 : r.remaining < amount
    · simp [h1, h2] at hok
    · simp only [if_neg h1, if_neg h2, transferOut] at hok
      by_cases h3 : σ.moduleBalance < amount
      · simp [h3] at hok
      · simp only [if_neg h3, Except.ok.injEq] at hok
        subst hok
        exact ⟨by omega, rfl, lookupKV_setKV_self _ _ _⟩

/-- Total transferred by a sequence of spends never exceeds the remaining
allowance the spender started with. -/
theorem runSpends_le (sp : Addr) : ∀ (reqs : List SpendReq) (σ : ModuleState)
    (r : AllowanceRecord), lookupKV σ.allowances (σ.owner, sp) = some r →
    (runSpends σ sp reqs).2 ≤ r.remaining := by
  intro reqs
  induction reqs with
  | nil => intro σ r h; simp [runSpends]
  | cons q rest ih =>
    intro σ r h
    cases hs : spend σ sp q.dst q.amount q.now with
    | error e =>
      have hrec := ih σ r h
      simp only [runSpends, spendStep, hs]
      simpa using hrec
    | ok σ' =>
      obtain ⟨hle, hown, hl⟩ := spend_ok_inv σ σ' sp q.dst q.amount q.now r h hs
      have hrec := ih σ' ⟨r.remaining - q.amount, r.expiry⟩ hl
      simp only [runSpends, spendStep, hs]
      simp only [AllowanceRecord.remaining] at hrec
      omega

/-- C7: `remaining` can never go below zero (amounts are naturals and every
over-ask is rejected): for every sequence of spend calls against an
allowance with remaining `A`, the total of the successful spends is at most
`A`; and a spend whose amount exceeds the current remaining is rejected with
`InsufficientAuthorization`, leaving the state unchanged. -/
theorem spend_never_overdraws :
    (∀ (σ : ModuleState) (sp : Addr) (r : AllowanceRecord) (reqs : List SpendReq),
      lookupKV σ.allowances (σ.owner, sp) = some r →
      (runSpends σ sp reqs).2 ≤ r.remaining) ∧
    (∀ (σ : ModuleState) (sp dst : Addr) (amount now : Nat) (r : AllowanceRecord),
      lookupKV σ.allowances (σ.owner, sp) = some r → now < r.expiry →
      r.remaining < amount →
      spend σ sp dst amount now = .error .InsufficientAuthorization ∧
      spendStep σ sp ⟨dst, amount, now⟩ = (σ, 0)) := by
  refine ⟨fun σ sp r reqs h => runSpends_le sp reqs σ r h, ?_⟩
  intro σ sp dst amount now r h hnow hover
  have h1 : ¬ r.expiry ≤ now := by omega
  have herr : spend σ sp dst amount now = .error .InsufficientAuthorization := by
    simp [spend, h, h1, hover]
  exact ⟨herr, by simp [spendStep, herr]⟩

/-- Witness for C7 on `sampleState` (allowance 10): three spends of 4, 5 and
9 transfer at most 10 in total; a spend of 11 is rejected without change. -/
theorem spend_never_overdraws_witness :
    (runSpends sampleState 1 [⟨2, 4, 10⟩, ⟨2, 5, 10⟩, ⟨2, 9, 10⟩]).2 ≤
      (⟨10, 100⟩ : AllowanceRecord).remaining ∧
    spend sampleState 1 2 11 10 = .error .InsufficientAuthorization ∧
    spendStep sampleState 1 ⟨2, 11, 10⟩ = (sampleState, 0) :=
  ⟨spend_never_overdraws.1 sampleState 1 ⟨10, 100⟩
      [⟨2, 4, 10⟩, ⟨2, 5, 10⟩, ⟨2, 9, 10⟩] rfl,
   (spend_never_overdraws.2 sampleState 1 2 11 10 ⟨10, 100⟩ rfl (by decide)
      (by decide)).1,
   (spend_never_overdraws.2 sampleState 1 2 11 10 ⟨10, 100⟩ rfl (by decide)
      (by decide)).2⟩

/-- C3: commit-reveal round trip. After `commit` of `Hash(secret ‖ to ‖
amount)`, a first `reveal(secret, to, amount)` succeeds; a second reveal
with the same inputs fails with `AlreadyConsumed`; and a reveal whose
inputs hash to a key no commitment holds fails with `NotFound`. -/
theorem commit_reveal_roundtrip (H : List Nat → List Nat) (σ σ₁ : ModuleState)
    (caller : Addr) (s : List Nat) (dst : Addr) (a d : Nat)
    (hc : commit σ caller (commitKey H s dst a) d = .ok σ₁)
    (hbal : a ≤ σ₁.moduleBalance)
    (s' : List Nat) (dst' : Addr) (a' : Nat)
    (hmiss : lookupKV σ₁.commitments (commitKey H s' dst' a') = none) :
    (∃ σ₂, reveal H σ₁ s dst a = .ok σ₂ ∧
      reveal H σ₂ s dst a = .error .AlreadyConsumed) ∧
    reveal H σ₁ s' dst' a' = .error .NotFound := by
  refine ⟨?_, by simp [reveal, hmiss]⟩
  simp only [commit] at hc
  cases hl : lookupKV σ.commitments (commitKey H s dst a) with
  | some c => rw [hl] at hc; exact absurd hc (by simp)
  | none =>
    rw [hl] at hc
    simp only [Except.ok.injEq] at hc
    have hcm : σ₁.commitments =
        setKV σ.commitments (commitKey H s dst a) ⟨caller, d, false⟩ := by
      rw [← hc]
    have hfound : lookupKV σ₁.commitments (commitKey H s dst a) =
        some ⟨caller, d, false⟩ := by
      rw [hcm]; exact lookupKV_setKV_self _ _ _
    have hnb : ¬ σ₁.moduleBalance < a := by omega
    refine ⟨{ σ₁ with
      commitments := setKV σ₁.commitments (commitKey H s dst a) ⟨caller, d, true⟩,
      moduleBalance := σ₁.moduleBalance - a,
      ledger := setKV σ₁.ledger dst ((lookupKV σ₁.ledger dst).getD 0 + a) },
      ?_, ?_⟩
    · simp [reveal, hfound, transferOut, hnb]
    · have hfound2 : lookupKV (setKV σ₁.commitments (commitKey H s dst a)
          (⟨caller, d, true⟩ : Commitment)) (commitKey H s dst a) =
          some ⟨caller, d, true⟩ := lookupKV_setKV_self _ _ _
      simp [reveal, hfound2]

/-- Witness for C3 on `commitState` (key committed for secret `[1]`,
recipient 2, amount 3). -/
theorem commit_reveal_roundtrip_witness :
    (∃ σ₂, reveal id commitState [1] 2 3 = .ok σ₂ ∧
      reveal id σ₂ [1] 2 3 = .error .AlreadyConsumed) ∧
    reveal id commitState [4] 2 3 = .error .NotFound :=
  commit_reveal_roundtrip id emptyState commitState 7 [1] 2 3 5 rfl (by decide)
    [4] 2 3 (by decide)

end VyperTutorials
